import Mathlib

/-!
Verification development for the `SignedOperations` module
(`src/src/modules/SignedOperations.ts`).

The module computes EIP-712-style digests of structured "operations",
derives cancel digests, verifies typed signatures, and builds the
structured-data payload for external typed-data signers.

Embedding conventions:
* Bytes are `Nat` (meant to lie in `0..255`), byte strings are `List Nat`.
* The Keccak-256 primitive is an external capability (spec section 4.1);
  every hashing definition is parameterized by an abstract
  `keccak : List Nat → List Nat`.
* Integers and addresses are `Nat` values; the data model follows the spec
  section 3 (the repository's `types.ts` is not part of the provided source).
* web3's `soliditySha3` is modelled by packing each typed argument to its
  ABI minimal representation (32-byte big-endian for `uint256` and
  `bytes32`, raw bytes for `bytes`, UTF-8 bytes for `string`),
  concatenating, and hashing.
-/

namespace SignedOperationsModel

/-- Big-endian byte encoding of a natural number, `k` bytes wide. -/
def beBytes : Nat → Nat → List Nat
  | 0, _ => []
  | k + 1, n => beBytes k (n / 256) ++ [n % 256]

/-- 32-byte big-endian encoding, the packed ABI representation of a
`uint256` value (and of an address left-padded to 32 bytes). -/
def be32 (n : Nat) : List Nat := beBytes 32 n

/-- Byte-string value of a big-endian byte list (inverse of `beBytes`). -/
def ofBe (l : List Nat) : Nat := l.foldl (fun acc d => acc * 256 + d) 0

/-- UTF-8 bytes of a string. All strings hashed by this module are ASCII,
for which the UTF-8 encoding is the list of code points. -/
def utf8 (s : String) : List Nat := s.data.map Char.toNat

/-- Modelled from the spec: `BytesHelper.hashString` (the repository's
`BytesHelper` is not under `src/`): the hash of the UTF-8 bytes of a
string (spec section 4.1, `hashUtf8`). -/
def hashString (keccak : List Nat → List Nat) (s : String) : List Nat :=
  keccak (utf8 s)

/-- Modelled from the spec: `BytesHelper.hashBytes`: the hash of a raw
byte string (spec section 4.1, `hashBytes`). -/
def hashBytes (keccak : List Nat → List Nat) (b : List Nat) : List Nat :=
  keccak b

/-- Modelled from the spec: `BytesHelper.addressToBytes32`: an address
left-padded to 32 bytes (spec section 4.1). -/
def addressToBytes32 (a : Nat) : List Nat := be32 a

/-- One typed argument of web3's `soliditySha3`, mirroring the literal
`(t, v)` pairs the source passes. -/
inductive SolArg
  | bytes32 (v : List Nat)
  | uint256 (v : Nat)
  | bytes (v : List Nat)
  | str (v : String)

/-- Packed ABI minimal representation of one `soliditySha3` argument. -/
def packArg : SolArg → List Nat
  | .bytes32 v => v
  | .uint256 v => be32 v
  | .bytes v => v
  | .str v => utf8 v

/-- web3's `soliditySha3`: tightly pack every argument, concatenate, hash. -/
def soliditySha3 (keccak : List Nat → List Nat) (args : List SolArg) : List Nat :=
  keccak (args.map packArg).flatten

/-- Modelled from the spec: the `AssetAmount` record of the data model
(spec section 3; the repository's `types.ts` is not under `src/`). -/
structure AssetAmount where
  sign : Bool
  denomination : Nat
  ref : Nat
  value : Nat
deriving DecidableEq

/-- Modelled from the spec: the `Action` record of the data model
(spec section 3). `data` is a raw byte string. -/
structure Action where
  actionType : Nat
  primaryAccountOwner : Nat
  primaryAccountNumber : Nat
  amount : AssetAmount
  primaryMarketId : Nat
  secondaryMarketId : Nat
  otherAddress : Nat
  secondaryAccountOwner : Nat
  secondaryAccountNumber : Nat
  data : List Nat
deriving DecidableEq

/-- Modelled from the spec: the `Operation` record of the data model
(spec section 3): an ordered sequence of actions plus
expiration, salt, sender and the off-chain `signer` metadata. -/
structure Operation where
  actions : List Action
  expiration : Nat
  salt : Nat
  sender : Nat
  signer : Nat
deriving DecidableEq

/-- The per-instance configuration of the `SignedOperations` class:
the network id and the verifying contract's address
(`this.networkId` and `this.contracts.signedOperationProxy.options.address`). -/
structure SignedOperationsConfig where
  networkId : Nat
  contractAddress : Nat
deriving DecidableEq

/-- `EIP712_ASSET_AMOUNT_STRING` from the source, written as the same
concatenation of literal pieces. -/
def EIP712_ASSET_AMOUNT_STRING : String :=
  "AssetAmount(" ++
  "bool sign," ++
  "uint8 denomination," ++
  "uint8 ref," ++
  "uint256 value" ++
  ")"

/-- `EIP712_ACTION_STRING` from the source. -/
def EIP712_ACTION_STRING : String :=
  "Action(" ++
  "uint8 actionType," ++
  "address accountOwner," ++
  "uint256 accountNumber," ++
  "AssetAmount assetAmount," ++
  "uint256 primaryMarketId," ++
  "uint256 secondaryMarketId," ++
  "address otherAddress," ++
  "address otherAccountOwner," ++
  "uint256 otherAccountNumber," ++
  "bytes data" ++
  ")" ++
  EIP712_ASSET_AMOUNT_STRING

/-- `EIP712_OPERATION_STRING` from the source. -/
def EIP712_OPERATION_STRING : String :=
  "Operation(" ++
  "Action[] actions," ++
  "uint256 expiration," ++
  "uint256 salt," ++
  "address sender" ++
  ")" ++
  EIP712_ACTION_STRING

/-- Modelled from the spec: `EIP712_DOMAIN_STRING` from the repository's
`SignatureHelper` (not under `src/`): the domain type-signature string
for the domain descriptor with name, version, chainId and
verifyingContract fields (spec sections 4.3 and 6). -/
def EIP712_DOMAIN_STRING : String :=
  "EIP712Domain(string name,string version,uint256 chainId,address verifyingContract)"

/-- `getAssetAmountHash` from the source: the EIP712 hash of an
`AssetAmount` struct. -/
def getAssetAmountHash (keccak : List Nat → List Nat) (amount : AssetAmount) : List Nat :=
  soliditySha3 keccak [
    SolArg.bytes32 (hashString keccak EIP712_ASSET_AMOUNT_STRING),
    SolArg.uint256 (if amount.sign then 1 else 0),
    SolArg.uint256 amount.denomination,
    SolArg.uint256 amount.ref,
    SolArg.uint256 amount.value]

/-- `getActionHash` from the source: the EIP712 hash of a single `Action`
struct. -/
def getActionHash (keccak : List Nat → List Nat) (action : Action) : List Nat :=
  soliditySha3 keccak [
    SolArg.bytes32 (hashString keccak EIP712_ACTION_STRING),
    SolArg.uint256 action.actionType,
    SolArg.bytes32 (addressToBytes32 action.primaryAccountOwner),
    SolArg.uint256 action.primaryAccountNumber,
    SolArg.bytes32 (getAssetAmountHash keccak action.amount),
    SolArg.uint256 action.primaryMarketId,
    SolArg.uint256 action.secondaryMarketId,
    SolArg.bytes32 (addressToBytes32 action.otherAddress),
    SolArg.bytes32 (addressToBytes32 action.secondaryAccountOwner),
    SolArg.uint256 action.secondaryAccountNumber,
    SolArg.bytes32 (hashBytes keccak action.data)]

/-- `getActionsHash` from the source: the EIP712 hash of the actions
array, each action mapped to a `bytes32` argument holding its hash. -/
def getActionsHash (keccak : List Nat → List Nat) (actions : List Action) : List Nat :=
  soliditySha3 keccak (actions.map (fun action => SolArg.bytes32 (getActionHash keccak action)))

/-- `getDomainHash` from the source: the EIP712 domain separator hash. -/
def getDomainHash (keccak : List Nat → List Nat) (cfg : SignedOperationsConfig) : List Nat :=
  soliditySha3 keccak [
    SolArg.bytes32 (hashString keccak EIP712_DOMAIN_STRING),
    SolArg.bytes32 (hashString keccak "SignedOperationProxy"),
    SolArg.bytes32 (hashString keccak "1.0"),
    SolArg.uint256 cfg.networkId,
    SolArg.bytes32 (addressToBytes32 cfg.contractAddress)]

/-- `getOperationHash` from the source: the final signable EIP712 hash of
an operation. -/
def getOperationHash (keccak : List Nat → List Nat) (cfg : SignedOperationsConfig)
    (operation : Operation) : List Nat :=
  let basicHash := soliditySha3 keccak [
    SolArg.bytes32 (hashString keccak EIP712_OPERATION_STRING),
    SolArg.bytes32 (getActionsHash keccak operation.actions),
    SolArg.uint256 operation.expiration,
    SolArg.uint256 operation.salt,
    SolArg.bytes32 (addressToBytes32 operation.sender)]
  soliditySha3 keccak [
    SolArg.bytes [0x19, 0x01],
    SolArg.bytes32 (getDomainHash keccak cfg),
    SolArg.bytes32 basicHash]

/-- `operationHashToCancelOperationHash` from the source: the hash of a
cancel-operation message for a given operation hash. -/
def operationHashToCancelOperationHash (keccak : List Nat → List Nat)
    (operationHash : List Nat) : List Nat :=
  soliditySha3 keccak [
    SolArg.str "cancel",
    SolArg.bytes32 operationHash]

/-- Well-formedness of an `AssetAmount`: every numeric field fits the
`uint256` value domain of the data model (spec section 3). -/
def AssetAmountWF (amount : AssetAmount) : Prop :=
  amount.denomination < 2 ^ 256 ∧ amount.ref < 2 ^ 256 ∧ amount.value < 2 ^ 256

instance : DecidablePred AssetAmountWF := fun amount => by
  unfold AssetAmountWF; infer_instance

/-- Well-formedness of an `Action`: every numeric field (including the
addresses, which are 20-byte values) fits the `uint256` value domain. -/
def ActionWF (action : Action) : Prop :=
  action.actionType < 2 ^ 256 ∧ action.primaryAccountOwner < 2 ^ 256 ∧
  action.primaryAccountNumber < 2 ^ 256 ∧ AssetAmountWF action.amount ∧
  action.primaryMarketId < 2 ^ 256 ∧ action.secondaryMarketId < 2 ^ 256 ∧
  action.otherAddress < 2 ^ 256 ∧ action.secondaryAccountOwner < 2 ^ 256 ∧
  action.secondaryAccountNumber < 2 ^ 256

instance : DecidablePred ActionWF := fun action => by
  unfold ActionWF; infer_instance

/-- An injective encoding of byte strings into `Nat`, used to build a
concrete injective stand-in for the hash primitive. -/
def listCode : List Nat → Nat
  | [] => 0
  | a :: t => Nat.pair a (listCode t) + 1

/-- A concrete injective stand-in for the hash primitive with 32-byte
outputs, used to instantiate hypotheses on the abstract `keccak`. -/
def keccakW (l : List Nat) : List Nat := listCode l :: List.replicate 31 0

/-- A sample action (only its `actionType` distinguishes it from `w2`). -/
def w1 : Action := ⟨1, 0, 0, ⟨true, 0, 0, 0⟩, 0, 0, 0, 0, 0, []⟩

/-- A second sample action. -/
def w2 : Action := ⟨2, 0, 0, ⟨true, 0, 0, 0⟩, 0, 0, 0, 0, 0, []⟩

/-- Modelled from the spec: the error taxonomy of signature decoding
(spec section 7): malformed raw signature bytes and unrecognized
trailing tags. -/
inductive SigError
  | InvalidSignature
  | UnsupportedSignatureType
deriving DecidableEq

/-- Modelled from the spec: a typed signature (spec section 3): 65 raw
signature bytes plus one trailing tag selecting the recovery scheme. -/
structure TypedSignature where
  raw : List Nat
  sigType : Nat
deriving DecidableEq

/-- Modelled from the spec: the `NO_PREPEND` tag of
`SignatureHelper.SIGNATURE_TYPES` (typed-data signature, no extra
prepending). -/
def SIGNATURE_TYPES_NO_PREPEND : Nat := 0

/-- Modelled from the spec: the `DECIMAL` tag (personal-sign style
signature with decimal-encoded recovery id). -/
def SIGNATURE_TYPES_DECIMAL : Nat := 1

/-- Modelled from the spec: the `HEXADECIMAL` tag (personal-sign style
signature with hexadecimal recovery id). -/
def SIGNATURE_TYPES_HEXADECIMAL : Nat := 2

/-- Modelled from the spec: the digest a tagged signature is actually
taken over: personal-sign style tags prepend the standard signed-message
marker to the digest, the typed-data tag signs the digest as is
(spec section 4.4). -/
def prependedDigest (sigType : Nat) (digest : List Nat) : List Nat :=
  if sigType = SIGNATURE_TYPES_NO_PREPEND then digest
  else utf8 "\x19Ethereum Signed Message:\n32" ++ digest

/-- Modelled from the spec: `ecRecoverTypedSignature` from the
repository's `SignatureHelper` (not under `src/`): rejects signatures that
are not 65 raw bytes with `InvalidSignature`, rejects unrecognized tags
with `UnsupportedSignatureType`, and otherwise dispatches to the
elliptic-curve recovery primitive, whose own rejection of a malformed
signature is `InvalidSignature` (spec section 4.4). -/
def ecRecoverTypedSignature (ecRecover : List Nat → List Nat → Option String)
    (digest : List Nat) (sig : TypedSignature) : Except SigError String :=
  if sig.raw.length ≠ 65 then .error .InvalidSignature
  else if sig.sigType = SIGNATURE_TYPES_NO_PREPEND ∨
      sig.sigType = SIGNATURE_TYPES_DECIMAL ∨
      sig.sigType = SIGNATURE_TYPES_HEXADECIMAL then
    match ecRecover (prependedDigest sig.sigType digest) sig.raw with
    | some a => .ok a
    | none => .error .InvalidSignature
  else .error .UnsupportedSignatureType

/-- ASCII lower-casing of one character. -/
def asciiLowerChar (c : Char) : Char :=
  if 65 ≤ c.toNat ∧ c.toNat ≤ 90 then Char.ofNat (c.toNat + 32) else c

/-- ASCII lower-casing of a string. -/
def asciiLower (s : String) : String := String.mk (s.data.map asciiLowerChar)

/-- Modelled from the spec: `BytesHelper.addressesAreEqual` (not under
`src/`): normalized, case-insensitive comparison of address strings
(spec section 4.5); normalization is modelled as ASCII lower-casing. -/
def addressesAreEqual (a b : String) : Bool := asciiLower a == asciiLower b

/-- `operationByHashHasValidSignature` from the source: recover the signer
from the operation digest and the typed signature, then compare with the
expected signer; a decoding error propagates (the source lets the
exception escape). -/
def operationByHashHasValidSignature (ecRecover : List Nat → List Nat → Option String)
    (operationHash : List Nat) (typedSignature : TypedSignature)
    (expectedSigner : String) : Except SigError Bool :=
  (ecRecoverTypedSignature ecRecover operationHash typedSignature).map
    (fun signer => addressesAreEqual signer expectedSigner)

/-- `cancelOperationByHashHasValidSignature` from the source: recover the
signer from the cancel digest of the operation hash and compare with the
expected signer. -/
def cancelOperationByHashHasValidSignature (ecRecover : List Nat → List Nat → Option String)
    (keccak : List Nat → List Nat) (operationHash : List Nat)
    (typedSignature : TypedSignature) (expectedSigner : String) : Except SigError Bool :=
  (ecRecoverTypedSignature ecRecover
      (operationHashToCancelOperationHash keccak operationHash) typedSignature).map
    (fun signer => addressesAreEqual signer expectedSigner)

/-- One `(type, name)` field descriptor of an EIP712 struct list. -/
structure TypedField where
  type : String
  name : String
deriving DecidableEq

/-- `EIP712_OPERATION_STRUCT` from the source. -/
def EIP712_OPERATION_STRUCT : List TypedField :=
  [⟨"Action[]", "actions"⟩, ⟨"uint256", "expiration"⟩,
   ⟨"uint256", "salt"⟩, ⟨"address", "sender"⟩]

/-- `EIP712_ACTION_STRUCT` from the source. -/
def EIP712_ACTION_STRUCT : List TypedField :=
  [⟨"uint8", "actionType"⟩, ⟨"address", "accountOwner"⟩,
   ⟨"uint256", "accountNumber"⟩, ⟨"AssetAmount", "assetAmount"⟩,
   ⟨"uint256", "primaryMarketId"⟩, ⟨"uint256", "secondaryMarketId"⟩,
   ⟨"address", "otherAddress"⟩, ⟨"address", "otherAccountOwner"⟩,
   ⟨"uint256", "otherAccountNumber"⟩, ⟨"bytes", "data"⟩]

/-- `EIP712_ASSET_AMOUNT_STRUCT` from the source. -/
def EIP712_ASSET_AMOUNT_STRUCT : List TypedField :=
  [⟨"bool", "sign"⟩, ⟨"uint8", "denomination"⟩,
   ⟨"uint8", "ref"⟩, ⟨"uint256", "value"⟩]

/-- Modelled from the spec: `EIP712_DOMAIN_STRUCT` from the repository's
`SignatureHelper` (not under `src/`): the ordered field list of the domain
descriptor (spec section 6). -/
def EIP712_DOMAIN_STRUCT : List TypedField :=
  [⟨"string", "name"⟩, ⟨"string", "version"⟩,
   ⟨"uint256", "chainId"⟩, ⟨"address", "verifyingContract"⟩]

namespace Helpers

/-- Modelled from the spec: `Helpers.toString` (the repository's
`Helpers` is not under `src/`): coercion of a numeric value to its
canonical base-10 string form (spec section 6). -/
def toString (n : Nat) : String := Nat.repr n

end Helpers

/-- The domain descriptor of the typed-data signing payload. -/
structure DomainData where
  name : String
  version : String
  chainId : Nat
  verifyingContract : Nat
deriving DecidableEq

/-- The `assetAmount` record of the typed-data signing payload, with the
fields in the representation the source builds: the boolean passed
through, the numeric fields coerced to strings. -/
structure AssetAmountData where
  sign : Bool
  denomination : String
  ref : String
  value : String
deriving DecidableEq

/-- One action record of the typed-data signing payload, with each field
in the representation the source builds: numeric fields (and
`otherAddress`) coerced to strings, the account-owner and sender-side
address values passed through, `data` passed through. -/
structure ActionData where
  actionType : String
  accountOwner : Nat
  accountNumber : String
  assetAmount : AssetAmountData
  primaryMarketId : String
  secondaryMarketId : String
  otherAddress : String
  otherAccountOwner : Nat
  otherAccountNumber : String
  data : List Nat
deriving DecidableEq

/-- The operation record of the typed-data signing payload. -/
structure OperationData where
  actions : List ActionData
  expiration : String
  salt : String
  sender : Nat
deriving DecidableEq

/-- The `types` map of the typed-data signing payload. -/
structure TypedDataTypes where
  EIP712Domain : List TypedField
  Operation : List TypedField
  Action : List TypedField
  AssetAmount : List TypedField
deriving DecidableEq

/-- The full typed-data signing payload (the `data` object of
`ethSignTypedOperationInternal`). -/
structure TypedData where
  types : TypedDataTypes
  domain : DomainData
  primaryType : String
  message : OperationData
deriving DecidableEq

/-- The pure payload-building part of `ethSignTypedOperationInternal` from
the source (the outbound RPC call itself is external I/O): the domain
data, the per-action records with their field coercions, the operation
record (`expiration` and `salt` via the base-10 `toFixed(0)` coercion),
the struct type lists and the `primaryType` tag. -/
def ethSignTypedOperationData (cfg : SignedOperationsConfig)
    (operation : Operation) : TypedData :=
  let domainData : DomainData := {
    name := "SignedOperationProxy"
    version := "1.0"
    chainId := cfg.networkId
    verifyingContract := cfg.contractAddress }
  let actionsData : List ActionData := operation.actions.map (fun action => {
    actionType := Helpers.toString action.actionType
    accountOwner := action.primaryAccountOwner
    accountNumber := Helpers.toString action.primaryAccountNumber
    assetAmount := {
      sign := action.amount.sign
      denomination := Helpers.toString action.amount.denomination
      ref := Helpers.toString action.amount.ref
      value := Helpers.toString action.amount.value }
    primaryMarketId := Helpers.toString action.primaryMarketId
    secondaryMarketId := Helpers.toString action.secondaryMarketId
    otherAddress := Helpers.toString action.otherAddress
    otherAccountOwner := action.secondaryAccountOwner
    otherAccountNumber := Helpers.toString action.secondaryAccountNumber
    data := action.data })
  let operationData : OperationData := {
    actions := actionsData
    expiration := Helpers.toString operation.expiration
    salt := Helpers.toString operation.salt
    sender := operation.sender }
  { types := {
      EIP712Domain := EIP712_DOMAIN_STRUCT
      Operation := EIP712_OPERATION_STRUCT
      Action := EIP712_ACTION_STRUCT
      AssetAmount := EIP712_ASSET_AMOUNT_STRUCT }
    domain := domainData
    primaryType := "Operation"
    message := operationData }

/-- The lowercase hexadecimal rendering of an address value, the form the
claim about the signing payload asserts for address fields. -/
def lowercaseHexAddr (n : Nat) : String := "0x" ++ (Nat.toDigits 16 n).asString

/-- The configuration used in the payload counterexample. -/
def cfgC9 : SignedOperationsConfig := ⟨1, 0⟩

/-- The operation used in the payload counterexample: one action whose
`otherAddress` is the address value 0xdeadbeef. -/
def opC9 : Operation :=
  ⟨[⟨0, 0, 0, ⟨true, 0, 0, 0⟩, 0, 0, 3735928559, 0, 0, []⟩], 0, 0, 0, 0⟩

/-- Modelled from the spec: the contract-call options record (the
repository's `types.ts` is not under `src/`); only the fields this module
touches are modelled, with `from_` standing for the reserved field name
`from`, plus one unrelated field to observe frame effects. -/
structure ContractCallOptions where
  from_ : Option Nat := none
  gasPrice : Option Nat := none
deriving DecidableEq

/-- `cancelOperation` from the source, with the mutable options object
made explicit: option objects live in a heap addressed by references.
The source runs `const cco = options || ...; cco.from = operation.signer`
and dispatches the cancel with `cco`: when the caller passed an options
object it is reused (not copied) and its `from` field is overwritten with
the operation's signer; otherwise a fresh empty object is allocated.
Returns the updated heap, the reference dispatched, and the dispatched
operation hash. -/
def cancelOperation (keccak : List Nat → List Nat) (cfg : SignedOperationsConfig)
    (operation : Operation) (options : Option Nat)
    (heap : Nat → ContractCallOptions) (freshRef : Nat) :
    (Nat → ContractCallOptions) × Nat × List Nat :=
  match options with
  | some r => (Function.update heap r { heap r with from_ := some operation.signer }, r,
      getOperationHash keccak cfg operation)
  | none => (Function.update heap freshRef { from_ := some operation.signer }, freshRef,
      getOperationHash keccak cfg operation)

/-! ### Basic lemmas about the byte encodings -/

theorem beBytes_length (k n : Nat) : (beBytes k n).length = k := by
  induction k generalizing n with
  | zero => simp [beBytes]
  | succ k ih => simp [beBytes, ih]

theorem be32_length (n : Nat) : (be32 n).length = 32 := beBytes_length 32 n

theorem ofBe_append_single (xs : List Nat) (d : Nat) :
    ofBe (xs ++ [d]) = ofBe xs * 256 + d := by
  simp [ofBe]

theorem ofBe_beBytes (k n : Nat) : ofBe (beBytes k n) = n % 256 ^ k := by
  induction k generalizing n with
  | zero => simp [beBytes, ofBe, Nat.mod_one]
  | succ k ih =>
    rw [beBytes, ofBe_append_single, ih]
    calc n / 256 % 256 ^ k * 256 + n % 256
        = n % 256 + 256 * (n / 256 % 256 ^ k) := by ring
      _ = n % (256 * 256 ^ k) := Nat.mod_mul.symm
      _ = n % 256 ^ (k + 1) := by rw [pow_succ, Nat.mul_comm]

theorem pow256_32 : (256 : Nat) ^ 32 = 2 ^ 256 := by norm_num

theorem be32_inj {a b : Nat} (ha : a < 2 ^ 256) (hb : b < 2 ^ 256)
    (h : be32 a = be32 b) : a = b := by
  have h' := congrArg ofBe h
  rw [be32, be32, ofBe_beBytes, ofBe_beBytes, pow256_32,
    Nat.mod_eq_of_lt ha, Nat.mod_eq_of_lt hb] at h'
  exact h'

/-- Peeling one 32-byte chunk off the front of two equal packed encodings. -/
theorem chunk32_peel {x y xs ys : List Nat} (hx : x.length = 32) (hy : y.length = 32)
    (h : x ++ xs = y ++ ys) : x = y ∧ xs = ys :=
  List.append_inj h (hx.trans hy.symm)

/-! ### Claim theorems: hash composition -/

/-- C1: for every `Operation`, `getOperationHash` is the hash of
`0x1901 ++ domainHash ++ basicHash`, where `basicHash` hashes, in order,
the Operation type-signature digest, `getActionsHash` of the actions,
the 32-byte expiration and salt, and the sender left-padded to 32 bytes. -/
theorem c1_operation_hash_composition (keccak : List Nat → List Nat)
    (cfg : SignedOperationsConfig) (op : Operation) :
    getOperationHash keccak cfg op =
      keccak ([0x19, 0x01] ++ getDomainHash keccak cfg ++
        keccak (hashString keccak EIP712_OPERATION_STRING ++
          getActionsHash keccak op.actions ++ be32 op.expiration ++
          be32 op.salt ++ be32 op.sender)) := by
  simp [getOperationHash, soliditySha3, packArg, addressToBytes32]

/-- C3: the `signer` field does not flow into the operation digest: two
operations that agree on actions, expiration, salt and sender have the
same `getOperationHash`. -/
theorem c3_signer_not_hashed (keccak : List Nat → List Nat)
    (cfg : SignedOperationsConfig) (op : Operation) (s : Nat) :
    getOperationHash keccak cfg { op with signer := s } =
      getOperationHash keccak cfg op := rfl

/-- C4: `getDomainHash` hashes, in order, the domain type-signature digest,
the hashes of `"SignedOperationProxy"` and `"1.0"`, the 32-byte network id
and the contract address left-padded to 32 bytes; it depends on the
configuration only through the network id and the contract address. -/
theorem c4_domain_hash_composition (keccak : List Nat → List Nat)
    (cfg cfg' : SignedOperationsConfig) (h1 : cfg.networkId = cfg'.networkId)
    (h2 : cfg.contractAddress = cfg'.contractAddress) :
    getDomainHash keccak cfg =
      keccak (hashString keccak EIP712_DOMAIN_STRING ++
        hashString keccak "SignedOperationProxy" ++ hashString keccak "1.0" ++
        be32 cfg.networkId ++ be32 cfg.contractAddress) ∧
    getDomainHash keccak cfg = getDomainHash keccak cfg' := by
  constructor
  · simp [getDomainHash, soliditySha3, packArg, addressToBytes32]
  · have h : cfg = cfg' := by
      cases cfg; cases cfg'; simp_all
    rw [h]

theorem c4_domain_hash_composition_witness :
    getDomainHash (fun l => l) ⟨1, 5⟩ =
      hashString (fun l => l) EIP712_DOMAIN_STRING ++
        hashString (fun l => l) "SignedOperationProxy" ++
        hashString (fun l => l) "1.0" ++ be32 1 ++ be32 5 ∧
    getDomainHash (fun l => l) ⟨1, 5⟩ = getDomainHash (fun l => l) ⟨1, 5⟩ :=
  c4_domain_hash_composition (fun l => l) ⟨1, 5⟩ ⟨1, 5⟩ rfl rfl

/-- C5: the cancel digest hashes the UTF-8 bytes of `"cancel"` followed by
the operation digest, and its pre-image never starts with the `0x1901`
prefix used by the final EIP-712 composition. -/
theorem c5_cancel_hash_composition (keccak : List Nat → List Nat) (h : List Nat) :
    operationHashToCancelOperationHash keccak h = keccak (utf8 "cancel" ++ h) ∧
    ∀ tail : List Nat, utf8 "cancel" ++ h ≠ 0x19 :: 0x01 :: tail := by
  constructor
  · simp [operationHashToCancelOperationHash, soliditySha3, packArg]
  · intro tail hcontra
    have hc : utf8 "cancel" = [99, 97, 110, 99, 101, 108] := by decide
    rw [hc] at hcontra
    simp at hcontra

theorem c5_cancel_hash_composition_witness :
    operationHashToCancelOperationHash (fun l => l) [7] =
      utf8 "cancel" ++ [7] ∧
    utf8 "cancel" ++ [7] ≠ 0x19 :: 0x01 :: ([] : List Nat) :=
  ⟨(c5_cancel_hash_composition (fun l => l) [7]).1,
    (c5_cancel_hash_composition (fun l => l) [7]).2 []⟩

/-- C6: the canonical type-signature strings compose by appending each
referenced struct's string immediately after the referencing type's field
list: Action's string is its field list followed by AssetAmount's string,
and Operation's string is its field list followed by Action's string. -/
theorem c6_type_string_composition :
    EIP712_ASSET_AMOUNT_STRING =
      "AssetAmount(bool sign,uint8 denomination,uint8 ref,uint256 value)" ∧
    EIP712_ACTION_STRING =
      "Action(uint8 actionType,address accountOwner,uint256 accountNumber," ++
        "AssetAmount assetAmount,uint256 primaryMarketId,uint256 secondaryMarketId," ++
        "address otherAddress,address otherAccountOwner,uint256 otherAccountNumber," ++
        "bytes data)" ++ EIP712_ASSET_AMOUNT_STRING ∧
    EIP712_OPERATION_STRING =
      "Operation(Action[] actions,uint256 expiration,uint256 salt,address sender)" ++
        EIP712_ACTION_STRING := by
  refine ⟨?_, ?_, ?_⟩ <;> rfl

/-- C2: every hashing function is total: it returns a digest for every
well-typed input, and the example operation with no actions, zero
expiration, zero salt and the zero sender address has a well-defined
digest whose basic hash hashes `keccak []` as its actions hash. -/
theorem c2_hashing_total (keccak : List Nat → List Nat)
    (cfg : SignedOperationsConfig) :
    (∀ op : Operation, ∃ d, getOperationHash keccak cfg op = d) ∧
    (∀ l : List Action, ∃ d, getActionsHash keccak l = d) ∧
    (∀ a : Action, ∃ d, getActionHash keccak a = d) ∧
    (∀ am : AssetAmount, ∃ d, getAssetAmountHash keccak am = d) ∧
    (∀ h : List Nat, ∃ d, operationHashToCancelOperationHash keccak h = d) ∧
    getOperationHash keccak cfg ⟨[], 0, 0, 0, 0⟩ =
      keccak ([0x19, 0x01] ++ getDomainHash keccak cfg ++
        keccak (hashString keccak EIP712_OPERATION_STRING ++ keccak [] ++
          be32 0 ++ be32 0 ++ be32 0)) := by
  refine ⟨fun op => ⟨_, rfl⟩, fun l => ⟨_, rfl⟩, fun a => ⟨_, rfl⟩,
    fun am => ⟨_, rfl⟩, fun h => ⟨_, rfl⟩, ?_⟩
  simp [getOperationHash, getActionsHash, soliditySha3, packArg, addressToBytes32]

/-! ### Normalized pre-image equations -/

theorem getAssetAmountHash_eq (keccak : List Nat → List Nat) (amount : AssetAmount) :
    getAssetAmountHash keccak amount =
      keccak (hashString keccak EIP712_ASSET_AMOUNT_STRING ++
        (be32 (if amount.sign then 1 else 0) ++ (be32 amount.denomination ++
          (be32 amount.ref ++ be32 amount.value)))) := by
  simp [getAssetAmountHash, soliditySha3, packArg]

theorem getActionHash_eq (keccak : List Nat → List Nat) (action : Action) :
    getActionHash keccak action =
      keccak (hashString keccak EIP712_ACTION_STRING ++
        (be32 action.actionType ++ (be32 action.primaryAccountOwner ++
          (be32 action.primaryAccountNumber ++ (getAssetAmountHash keccak action.amount ++
            (be32 action.primaryMarketId ++ (be32 action.secondaryMarketId ++
              (be32 action.otherAddress ++ (be32 action.secondaryAccountOwner ++
                (be32 action.secondaryAccountNumber ++
                  hashBytes keccak action.data)))))))))) := by
  simp [getActionHash, soliditySha3, packArg, addressToBytes32]

theorem getActionsHash_eq (keccak : List Nat → List Nat) (actions : List Action) :
    getActionsHash keccak actions =
      keccak (actions.map (getActionHash keccak)).flatten := by
  unfold getActionsHash soliditySha3
  rw [List.map_map]
  rfl

theorem getAssetAmountHash_length (keccak : List Nat → List Nat)
    (hlen : ∀ x, (keccak x).length = 32) (amount : AssetAmount) :
    (getAssetAmountHash keccak amount).length = 32 := by
  rw [getAssetAmountHash_eq]; exact hlen _

theorem getActionHash_length (keccak : List Nat → List Nat)
    (hlen : ∀ x, (keccak x).length = 32) (action : Action) :
    (getActionHash keccak action).length = 32 := by
  rw [getActionHash_eq]; exact hlen _

/-! ### Injectivity of the structured hashes under a collision-free hash -/

theorem getAssetAmountHash_inj (keccak : List Nat → List Nat)
    (hinj : Function.Injective keccak) (hlen : ∀ x, (keccak x).length = 32)
    {a b : AssetAmount} (ha : AssetAmountWF a) (hb : AssetAmountWF b)
    (h : getAssetAmountHash keccak a = getAssetAmountHash keccak b) : a = b := by
  rw [getAssetAmountHash_eq, getAssetAmountHash_eq] at h
  have hpre := hinj h
  obtain ⟨-, hpre⟩ := chunk32_peel (hlen _) (hlen _) hpre
  obtain ⟨hsign, hpre⟩ := chunk32_peel (be32_length _) (be32_length _) hpre
  obtain ⟨hden, hpre⟩ := chunk32_peel (be32_length _) (be32_length _) hpre
  obtain ⟨href, hval⟩ := chunk32_peel (be32_length _) (be32_length _) hpre
  have hsign' := be32_inj (a := if a.sign then 1 else 0) (b := if b.sign then 1 else 0)
    (by split <;> norm_num) (by split <;> norm_num) hsign
  have hs : a.sign = b.sign := by
    cases hA : a.sign <;> cases hB : b.sign <;> simp_all
  have hd := be32_inj ha.1 hb.1 hden
  have hr := be32_inj ha.2.1 hb.2.1 href
  have hv := be32_inj ha.2.2 hb.2.2 hval
  cases a; cases b; simp_all

theorem getActionHash_inj (keccak : List Nat → List Nat)
    (hinj : Function.Injective keccak) (hlen : ∀ x, (keccak x).length = 32)
    {a b : Action} (ha : ActionWF a) (hb : ActionWF b)
    (h : getActionHash keccak a = getActionHash keccak b) : a = b := by
  obtain ⟨haT, haPO, haPN, haAM, haPM, haSM, haOA, haSO, haSN⟩ := ha
  obtain ⟨hbT, hbPO, hbPN, hbAM, hbPM, hbSM, hbOA, hbSO, hbSN⟩ := hb
  rw [getActionHash_eq, getActionHash_eq] at h
  have hpre := hinj h
  obtain ⟨-, hpre⟩ := chunk32_peel (hlen _) (hlen _) hpre
  obtain ⟨h1, hpre⟩ := chunk32_peel (be32_length _) (be32_length _) hpre
  obtain ⟨h2, hpre⟩ := chunk32_peel (be32_length _) (be32_length _) hpre
  obtain ⟨h3, hpre⟩ := chunk32_peel (be32_length _) (be32_length _) hpre
  obtain ⟨h4, hpre⟩ := chunk32_peel (getAssetAmountHash_length keccak hlen _)
    (getAssetAmountHash_length keccak hlen _) hpre
  obtain ⟨h5, hpre⟩ := chunk32_peel (be32_length _) (be32_length _) hpre
  obtain ⟨h6, hpre⟩ := chunk32_peel (be32_length _) (be32_length _) hpre
  obtain ⟨h7, hpre⟩ := chunk32_peel (be32_length _) (be32_length _) hpre
  obtain ⟨h8, hpre⟩ := chunk32_peel (be32_length _) (be32_length _) hpre
  obtain ⟨h9, h10⟩ := chunk32_peel (be32_length _) (be32_length _) hpre
  have e1 := be32_inj haT hbT h1
  have e2 := be32_inj haPO hbPO h2
  have e3 := be32_inj haPN hbPN h3
  have e4 := getAssetAmountHash_inj keccak hinj hlen haAM hbAM h4
  have e5 := be32_inj haPM hbPM h5
  have e6 := be32_inj haSM hbSM h6
  have e7 := be32_inj haOA hbOA h7
  have e8 := be32_inj haSO hbSO h8
  have e9 := be32_inj haSN hbSN h9
  have e10 : a.data = b.data := hinj h10
  cases a; cases b; simp_all

theorem flatten_chunks32_inj {xs ys : List (List Nat)}
    (hx : ∀ x ∈ xs, x.length = 32) (hy : ∀ y ∈ ys, y.length = 32)
    (h : xs.flatten = ys.flatten) : xs = ys := by
  induction xs generalizing ys with
  | nil =>
    cases ys with
    | nil => rfl
    | cons y t =>
      exfalso
      have h32 : y.length = 32 := hy y (by simp)
      rw [List.flatten_nil, List.flatten_cons] at h
      have hlen := congrArg List.length h
      simp [h32] at hlen
      omega
  | cons x t ih =>
    cases ys with
    | nil =>
      exfalso
      have h32 : x.length = 32 := hx x (by simp)
      rw [List.flatten_cons, List.flatten_nil] at h
      have hlen := congrArg List.length h
      simp [h32] at hlen
    | cons y t₂ =>
      rw [List.flatten_cons, List.flatten_cons] at h
      obtain ⟨h1, h2⟩ := chunk32_peel (hx x (by simp)) (hy y (by simp)) h
      rw [h1, ih (fun a ha => hx a (by simp [ha])) (fun a ha => hy a (by simp [ha])) h2]

theorem map_eq_of_inj_on {α β : Type} {f : α → β} {l₁ l₂ : List α}
    (hinj : ∀ a ∈ l₁, ∀ b ∈ l₂, f a = f b → a = b)
    (h : l₁.map f = l₂.map f) : l₁ = l₂ := by
  induction l₁ generalizing l₂ with
  | nil =>
    cases l₂ with
    | nil => rfl
    | cons b t => simp at h
  | cons a t ih =>
    cases l₂ with
    | nil => simp at h
    | cons b t₂ =>
      simp only [List.map_cons, List.cons.injEq] at h
      have hab := hinj a (by simp) b (by simp) h.1
      have ht := ih (fun x hx y hy => hinj x (by simp [hx]) y (by simp [hy])) h.2
      rw [hab, ht]

/-- C7: `getActionsHash` is the hash of the concatenation, in sequence
order, of each action's `getActionHash`; and for two well-formed action
lists that are permutations of each other but not equal, the concatenated
pre-images differ, provided the hash primitive is collision-free
(injective) with 32-byte outputs. -/
theorem c7_actions_hash_order (keccak : List Nat → List Nat)
    (hinj : Function.Injective keccak) (hlen : ∀ x, (keccak x).length = 32)
    (l₁ l₂ : List Action) (hwf : ∀ a ∈ l₁, ActionWF a)
    (hperm : l₁.Perm l₂) (hne : l₁ ≠ l₂) :
    (∀ l : List Action,
      getActionsHash keccak l = keccak (l.map (getActionHash keccak)).flatten) ∧
    (l₁.map (getActionHash keccak)).flatten ≠
      (l₂.map (getActionHash keccak)).flatten := by
  refine ⟨getActionsHash_eq keccak, fun hcontra => hne ?_⟩
  have hwf₂ : ∀ a ∈ l₂, ActionWF a := fun a hm => hwf a (hperm.mem_iff.mpr hm)
  have hmapeq := flatten_chunks32_inj
    (fun x hx => by
      obtain ⟨a, -, rfl⟩ := List.mem_map.mp hx
      exact getActionHash_length keccak hlen a)
    (fun x hx => by
      obtain ⟨a, -, rfl⟩ := List.mem_map.mp hx
      exact getActionHash_length keccak hlen a)
    hcontra
  exact map_eq_of_inj_on
    (fun a haM b hbM hfab =>
      getActionHash_inj keccak hinj hlen (hwf a haM) (hwf₂ b hbM) hfab)
    hmapeq

theorem listCode_inj : Function.Injective listCode := by
  intro x
  induction x with
  | nil =>
    intro y h
    cases y with
    | nil => rfl
    | cons b t =>
      simp only [listCode] at h
      exact absurd h.symm (Nat.succ_ne_zero _)
  | cons a t ih =>
    intro y h
    cases y with
    | nil =>
      simp only [listCode] at h
      exact absurd h (Nat.succ_ne_zero _)
    | cons b t₂ =>
      simp only [listCode, Nat.add_right_cancel_iff] at h
      obtain ⟨h1, h2⟩ := Nat.pair_eq_pair.mp h
      rw [h1, ih h2]

theorem keccakW_inj : Function.Injective keccakW := by
  intro x y h
  simp only [keccakW, List.cons.injEq] at h
  exact listCode_inj h.1

theorem keccakW_length : ∀ x, (keccakW x).length = 32 := by
  intro x; simp [keccakW]

theorem c7_actions_hash_order_witness :
    ([w1, w2].map (getActionHash keccakW)).flatten ≠
      ([w2, w1].map (getActionHash keccakW)).flatten :=
  (c7_actions_hash_order keccakW keccakW_inj keccakW_length [w1, w2] [w2, w1]
    (by decide) (by decide) (by decide)).2

/-! ### Claim theorems: verification predicates, payload, cancel options -/

/-- C8: the verification predicates return the boolean outcome of
comparing the recovered address case-insensitively against the expected
signer whenever recovery succeeds (a mismatch yields `false`, never an
error), and propagate the `InvalidSignature` or
`UnsupportedSignatureType` error whenever the typed signature is
structurally malformed. -/
theorem c8_verification_error_handling (ecRecover : List Nat → List Nat → Option String)
    (keccak : List Nat → List Nat) (operationHash : List Nat)
    (sig : TypedSignature) (expectedSigner : String) :
    (∀ a, ecRecoverTypedSignature ecRecover operationHash sig = Except.ok a →
      operationByHashHasValidSignature ecRecover operationHash sig expectedSigner =
        Except.ok (addressesAreEqual a expectedSigner) ∧
      addressesAreEqual a expectedSigner =
        (asciiLower a == asciiLower expectedSigner)) ∧
    (∀ e, ecRecoverTypedSignature ecRecover operationHash sig = Except.error e →
      operationByHashHasValidSignature ecRecover operationHash sig expectedSigner =
        Except.error e) ∧
    (∀ a, ecRecoverTypedSignature ecRecover
        (operationHashToCancelOperationHash keccak operationHash) sig = Except.ok a →
      cancelOperationByHashHasValidSignature ecRecover keccak operationHash sig
          expectedSigner =
        Except.ok (addressesAreEqual a expectedSigner)) ∧
    (∀ e, ecRecoverTypedSignature ecRecover
        (operationHashToCancelOperationHash keccak operationHash) sig = Except.error e →
      cancelOperationByHashHasValidSignature ecRecover keccak operationHash sig
          expectedSigner =
        Except.error e) := by
  refine ⟨fun a h => ⟨?_, rfl⟩, fun e h => ?_, fun a h => ?_, fun e h => ?_⟩ <;>
    simp [operationByHashHasValidSignature, cancelOperationByHashHasValidSignature,
      h, Except.map]

theorem c8_verification_error_handling_witness :
    operationByHashHasValidSignature (fun _ _ => some "0xAB") []
      ⟨List.replicate 65 0, 1⟩ "0xcd" = Except.ok false ∧
    operationByHashHasValidSignature (fun _ _ => some "0xAB") []
      ⟨List.replicate 65 0, 7⟩ "0xcd" =
      Except.error SigError.UnsupportedSignatureType := by
  constructor
  · have h := (c8_verification_error_handling (fun _ _ => some "0xAB") (fun l => l) []
      ⟨List.replicate 65 0, 1⟩ "0xcd").1 "0xAB" rfl
    exact h.1.trans (congrArg Except.ok (by decide))
  · exact (c8_verification_error_handling (fun _ _ => some "0xAB") (fun l => l) []
      ⟨List.replicate 65 0, 7⟩ "0xcd").2.1 SigError.UnsupportedSignatureType rfl

/-- C9 counterexample: in the payload built for the typed-data signer, the
`otherAddress` field of the example action is the base-10 decimal string
of the address value, not its lowercase hexadecimal rendering, refuting
the claim that every address field is rendered as lowercase hex. -/
theorem c9_counterexample :
    (ethSignTypedOperationData cfgC9 opC9).message.actions.map
        (fun a => a.otherAddress) = ["3735928559"] ∧
    lowercaseHexAddr 3735928559 = "0xdeadbeef" ∧
    ("3735928559" : String) ≠ "0xdeadbeef" := by
  refine ⟨by decide, by decide, by decide⟩

/-- C9 (amended): the payload contains the concrete Operation value with
every integer field coerced to its canonical base-10 string form, the
`otherAddress` field passed through that same base-10 coercion, the
`accountOwner`, `otherAccountOwner` and `sender` address fields passed
through unchanged (no lowercase-hex rendering), the boolean sign and the
raw `data` bytes passed through, together with the `primaryType` tag
`"Operation"`, the four struct type lists, and the domain descriptor
with name `"SignedOperationProxy"`, version `"1.0"`, the chain id and the
verifying contract. -/
theorem c9_payload_amended (cfg : SignedOperationsConfig) (operation : Operation) :
    ethSignTypedOperationData cfg operation =
      { types := {
          EIP712Domain := EIP712_DOMAIN_STRUCT
          Operation := EIP712_OPERATION_STRUCT
          Action := EIP712_ACTION_STRUCT
          AssetAmount := EIP712_ASSET_AMOUNT_STRUCT }
        domain := {
          name := "SignedOperationProxy"
          version := "1.0"
          chainId := cfg.networkId
          verifyingContract := cfg.contractAddress }
        primaryType := "Operation"
        message := {
          actions := operation.actions.map (fun action => {
            actionType := Nat.repr action.actionType
            accountOwner := action.primaryAccountOwner
            accountNumber := Nat.repr action.primaryAccountNumber
            assetAmount := {
              sign := action.amount.sign
              denomination := Nat.repr action.amount.denomination
              ref := Nat.repr action.amount.ref
              value := Nat.repr action.amount.value }
            primaryMarketId := Nat.repr action.primaryMarketId
            secondaryMarketId := Nat.repr action.secondaryMarketId
            otherAddress := Nat.repr action.otherAddress
            otherAccountOwner := action.secondaryAccountOwner
            otherAccountNumber := Nat.repr action.secondaryAccountNumber
            data := action.data })
          expiration := Nat.repr operation.expiration
          salt := Nat.repr operation.salt
          sender := operation.sender } } := rfl

/-- C10: `cancelOperation` dispatches the cancel with the very options
object the caller passed (same reference, not a copy), with its `from`
field overwritten by the operation's signer — silently replacing any
caller-provided value — while every other field and every other object
is untouched, and the dispatched hash is the operation's hash. -/
theorem c10_cancel_options_mutation (keccak : List Nat → List Nat)
    (cfg : SignedOperationsConfig) (operation : Operation) (r : Nat)
    (heap : Nat → ContractCallOptions) (freshRef : Nat) :
    (cancelOperation keccak cfg operation (some r) heap freshRef).2.1 = r ∧
    ((cancelOperation keccak cfg operation (some r) heap freshRef).1 r).from_ =
      some operation.signer ∧
    ((cancelOperation keccak cfg operation (some r) heap freshRef).1 r).gasPrice =
      (heap r).gasPrice ∧
    (∀ i, (cancelOperation keccak cfg operation (some r) heap freshRef).1 i =
      if i = r then { heap r with from_ := some operation.signer } else heap i) ∧
    (cancelOperation keccak cfg operation (some r) heap freshRef).2.2 =
      getOperationHash keccak cfg operation := by
  refine ⟨rfl, ?_, ?_, ?_, rfl⟩ <;>
    simp [cancelOperation, Function.update_apply]

end SignedOperationsModel
